import Mathlib

/-!
Verification development for the bili-sync-server repository.

Part 1 embeds the typed API request builder (source file
`src/unnamed/part_000`): HTTP methods, parameter declarations,
`simpleParam`, `validateNonEmpty`, `ClientErrorCode`, `APIError`
and `ApiBuilder.body`.

Part 2 embeds the HTTP controller (source file `src/src/controller.ts`):
the three route handlers, as pure functions producing the trace of calls
they make into the session core, together with the propagated error.

Part 3 models the session core (Session, Client, SessionManager), whose
source files are not part of the visible excerpt, from the specification.
-/

/-! ## Part 1: typed API request builder (src/unnamed/part_000) -/

/-- The HTTP methods of the builder: `HTTPMethodsWithBody` are POST, PUT,
PATCH; the rest are `HTTPMethodsWithoutBody`. -/
inductive HTTPMethod where
  | GET | HEAD | CONNECT | DELETE | OPTIONS | POST | PUT | PATCH
  deriving DecidableEq, Repr

/-- True exactly on the `HTTPMethodsWithBody` union of the source. -/
def HTTPMethod.hasBody : HTTPMethod → Bool
  | .POST | .PUT | .PATCH => true
  | _ => false

/-- The `TypeNames` union: "number" | "string" | "boolean" | "string[]". -/
inductive ParamTypeName where
  | number | string | boolean | stringArray
  deriving DecidableEq, Repr

/-- The error codes of the `ClientErrorCode` enum. -/
inductive ClientErrorCode where
  | Error | InvalidParameter | NetworkFailure | ParseError
  deriving DecidableEq, Repr

/-- The numeric value of each `ClientErrorCode` enum member. -/
def ClientErrorCode.toInt : ClientErrorCode → Int
  | .Error => -1
  | .InvalidParameter => -2
  | .NetworkFailure => -3
  | .ParseError => -4

/-- The `APIError` class: an error value carrying a numeric code and a
message. -/
structure APIError where
  code : Int
  message : String
  deriving DecidableEq, Repr

/-- The character class `\s` of a JavaScript regular expression:
WhiteSpace (TAB, VT, FF, SP, NBSP, ZWNBSP and the Unicode Zs category)
together with LineTerminator (LF, CR, LS, PS). -/
def isJsWhitespace (c : Char) : Bool :=
  c.toNat ∈ [0x09, 0x0A, 0x0B, 0x0C, 0x0D, 0x20, 0xA0, 0x1680,
    0x2000, 0x2001, 0x2002, 0x2003, 0x2004, 0x2005, 0x2006, 0x2007,
    0x2008, 0x2009, 0x200A, 0x2028, 0x2029, 0x202F, 0x205F, 0x3000, 0xFEFF]

/-- Semantics of the test `/^\s*$/.test(text)`: with neither the multiline
nor the global flag, the anchors pin the whole string, so the regex accepts
exactly the strings all of whose characters are in the class `\s`. -/
def regexBlankTest (text : String) : Bool :=
  text.toList.all isJsWhitespace

/-- `validateNonEmpty(key, text)`: throws `APIError(InvalidParameter, ...)`
when `/^\s*$/.test(text)` holds, otherwise returns `text`. The thrown
error is the `Except.error` case. -/
def validateNonEmpty (key : String) (text : String) : Except APIError String :=
  if regexBlankTest text then
    .error ⟨ClientErrorCode.InvalidParameter.toInt, key ++ " cannot be empty"⟩
  else
    .ok text

/-- Validators attached to parameter declarations. The source stores the
validator as a function value; the two validator functions appearing in the
excerpt are `validateByPass` and `validateNonEmpty`, so a validator is
modelled as a tag interpreted by `runValidator`. -/
inductive ValidatorTag where
  | byPass | nonEmpty
  deriving DecidableEq, Repr

/-- Interpretation of a validator tag on string values: `validateByPass`
returns the value unchanged, `nonEmpty` is `validateNonEmpty`. -/
def runValidator : ValidatorTag → String → String → Except APIError String
  | .byPass, _, value => .ok value
  | .nonEmpty, key, value => validateNonEmpty key value

/-- `ParamInfo`: a declared parameter's type, validator and optionality
(`optional?: true` modelled as a Bool defaulting to false). -/
structure ParamInfo where
  type : ParamTypeName
  validator : ValidatorTag
  optional : Bool := false
  deriving DecidableEq, Repr

/-- One value of a `SimpleParamsDeclare` record field: either a bare type
name or a full `ParamInfo`. -/
inductive SimpleParamValue where
  | typeName (t : ParamTypeName)
  | info (i : ParamInfo)
  deriving DecidableEq, Repr

/-- A `SimpleParamsDeclare` record, as an association list of field names. -/
abbrev SimpleParamsDeclare := List (String × SimpleParamValue)

/-- A `ParamsDeclare` record, as an association list of field names. -/
abbrev ParamsDeclare := List (String × ParamInfo)

/-- The `switch` body of `simpleParam` on a single field value: a bare type
name becomes a `ParamInfo` with that type and `validateByPass`; a full
`ParamInfo` (the `default` case) is kept as is. -/
def simpleParamEntry : SimpleParamValue → ParamInfo
  | .typeName .number => ⟨.number, .byPass, false⟩
  | .typeName .string => ⟨.string, .byPass, false⟩
  | .typeName .boolean => ⟨.boolean, .byPass, false⟩
  | .typeName .stringArray => ⟨.stringArray, .byPass, false⟩
  | .info i => i

/-- `simpleParam(info)`: expands every field of a `SimpleParamsDeclare`
into a full `ParamInfo`. -/
def simpleParam (info : SimpleParamsDeclare) : ParamsDeclare :=
  info.map (fun p => (p.1, simpleParamEntry p.2))

/-- The `ApiBuilder` class state: method, url, path/query/data parameter
declarations (`dataInfo` is `undefined` for body-less builders) and the
optional redirect mode. -/
structure ApiBuilder where
  method : HTTPMethod
  url : String
  pathInfo : ParamsDeclare
  queryInfo : ParamsDeclare
  dataInfo : Option ParamsDeclare
  redirectOption : Option String := none

/-- `ApiBuilder.body(data)`: for POST, PATCH and PUT returns a new builder
whose `dataInfo` is `simpleParam(data)`; for every other method throws
`APIError(ClientErrorCode.Error, ...)`. -/
def ApiBuilder.body (b : ApiBuilder) (data : SimpleParamsDeclare) :
    Except APIError ApiBuilder :=
  if b.method = .POST ∨ b.method = .PATCH ∨ b.method = .PUT then
    .ok { b with dataInfo := some (simpleParam data) }
  else
    .error ⟨ClientErrorCode.Error.toInt, "HTTP Method should not have body."⟩

/-! ## Part 3 definitions needed by Part 2: the session core model -/

/-- `SessionOptions`: an opaque options value, forwarded by the core but
never interpreted; modelled as a wrapped payload. -/
structure SessionOptions where
  raw : String
  deriving DecidableEq, Repr

/-- A connection handle; the routing layer's upgrade yields one. Modelled
as a numeric handle since the core only passes it around. -/
abbrev Conn := Nat

/-- The `Client` class: a stable identity and the currently bound
connection, absent while disconnected. -/
structure Client where
  id : String
  conn : Option Conn
  deriving DecidableEq, Repr

/-- `new Client()`: a fresh client with no bound connection; its identity
is assigned by `Session.join`. -/
def Client.new : Client := ⟨"", none⟩

/-- Modelled from the spec: `Client.bind(connection)` attaches a Connection
as this Client's active transport (closing a previously bound one is a
transport side effect, not visible in the resulting state). The source
file `client.ts` is not part of the visible excerpt. -/
def Client.bind (c : Client) (conn : Conn) : Client :=
  { c with conn := some conn }

/-- The session-relative error taxonomy of the spec that the controller
can observe: a NotFound signalled by `Session.reconnect`. -/
inductive RelayError where
  | notFound
  deriving DecidableEq, Repr

/-- The `Session` class state: identity, creation time, configured
lifetime, the stored options and the member mapping from client identity
to `Client`, in join (FIFO) order. -/
structure Session where
  id : String
  createdAt : Nat
  lifetime : Nat
  options : SessionOptions
  members : List (String × Client)
  deriving DecidableEq, Repr

/-- Modelled from the spec: the fresh, unique-within-the-Session client
identity generator used by `Session.join`. The spec requires an opaque
token distinct from every identity already present; modelled by a token
strictly longer than every key of the member mapping. -/
def freshClientId (members : List (String × Client)) : String :=
  ⟨List.replicate ((members.map (fun p => p.1.length)).foldr max 0 + 1) 'c'⟩

/-- Modelled from the spec: `Session.join(client)` assigns the client a
fresh identity unique within this Session, registers it in the member
mapping and returns the issued identity. The source file `session.ts` is
not part of the visible excerpt. -/
def Session.join (s : Session) (c : Client) : Session × String :=
  let cid := freshClientId s.members
  ({ s with members := s.members ++ [(cid, { c with id := cid })] }, cid)

/-- Modelled from the spec: `Session.reconnect(clientId, connection)` looks
up `clientId` in the member mapping; if absent it signals NotFound and
leaves the Session untouched; if present it rebinds the existing Client's
connection to the new one without changing its identity. The returned
pair is (state after the call, signalled error if any). -/
def Session.reconnect (s : Session) (clientId : String) (conn : Conn) :
    Session × Option RelayError :=
  match s.members.lookup clientId with
  | none => (s, some .notFound)
  | some c =>
      ({ s with members :=
          s.members.map (fun p =>
            if p.1 = clientId then (p.1, c.bind conn) else p) }, none)

/-- A fresh Session as built at creation time: given identity, creation
time, lifetime and options, with no members. -/
def Session.fresh (sid : String) (createdAt lifetime : Nat)
    (options : SessionOptions) : Session :=
  ⟨sid, createdAt, lifetime, options, []⟩

/-- One membership operation on a Session: a join or a reconnect. -/
inductive SessionOp where
  | join (c : Client)
  | reconnect (clientId : String) (conn : Conn)

/-- Apply one membership operation to a Session's state. -/
def Session.applyOp (s : Session) : SessionOp → Session
  | .join c => (s.join c).1
  | .reconnect clientId conn => (s.reconnect clientId conn).1

/-- Apply a sequence of membership operations to a Session's state. -/
def Session.applyOps (s : Session) (ops : List SessionOp) : Session :=
  ops.foldl Session.applyOp s

/-- The keys of a Session's member mapping: the client identities it has
issued and still holds. -/
def Session.clientIds (s : Session) : List String :=
  s.members.map Prod.fst

/-- Run a sequence of `join` calls and collect, in call order, the client
identities each call issued. -/
def Session.issueAll (s : Session) : List Client → Session × List String
  | [] => (s, [])
  | c :: cs =>
      let r := s.join c
      let rest := r.1.issueAll cs
      (rest.1, r.2 :: rest.2)

/-- The SessionManager registry: the mapping from session identity to
`Session`. -/
abbrev Registry := List (String × Session)

/-- Modelled from the spec: the fresh session identity generator used by
`SessionManager.new`; an opaque token distinct from every registered
identity, modelled by a token strictly longer than every key. -/
def freshSessionId (m : Registry) : String :=
  ⟨List.replicate ((m.map (fun p => p.1.length)).foldr max 0 + 1) 's'⟩

/-- Modelled from the spec: `SessionManager.new(options, lifetime)`
allocates a fresh unique session identity, constructs a Session with the
given options and TTL, registers it and returns it. `now` is the creation
time. The source file `session-manager.ts` is not part of the visible
excerpt. -/
def SessionManager.new (m : Registry) (options : SessionOptions)
    (lifetime : Nat) (now : Nat) : Registry × Session :=
  let sid := freshSessionId m
  let s := Session.fresh sid now lifetime options
  ((sid, s) :: m, s)

/-- Modelled from the spec: `SessionManager.get(sessionId)` looks the
identity up in the registry; the TTL timer unconditionally destroys a
session once `lifetime` has elapsed since `createdAt`, after which the
lookup is absent. Destruction-at-TTL is modelled by the time-indexed
lookup filtering expired sessions. -/
def SessionManager.get (m : Registry) (now : Nat) (sessionId : String) :
    Option Session :=
  match m.lookup sessionId with
  | none => none
  | some s => if s.createdAt + s.lifetime ≤ now then none else some s

/-- One membership operation addressed to one registered session. -/
structure ManagerOp where
  sessionId : String
  op : SessionOp

/-- Apply one addressed membership operation to the registry: the
addressed session's state is updated in place; other entries are kept. -/
def SessionManager.applyOp (m : Registry) (o : ManagerOp) : Registry :=
  m.map (fun p => if p.1 = o.sessionId then (p.1, p.2.applyOp o.op) else p)

/-- Apply a sequence of addressed membership operations to the registry. -/
def SessionManager.applyOps (m : Registry) (ops : List ManagerOp) : Registry :=
  ops.foldl SessionManager.applyOp m

/-! ## Part 2: the HTTP controller (src/src/controller.ts) -/

/-- One observable step taken by a route handler: setting the response
status, constructing-and-binding a client, calling `Session.join`,
calling `Session.reconnect`, or the success log line. -/
inductive HandlerStep where
  | status (code : Nat)
  | clientBind (conn : Conn)
  | sessionJoin (client : Client)
  | sessionReconnect (clientId : String) (conn : Conn)
  | logInfo
  deriving DecidableEq, Repr

/-- The handler of `router.all("/session/:sessionId")`: looks the session
up through `get` (the `SessionManager.get` entry point); on absent sets
status 404 and returns; otherwise, when the request carries a WebSocket
upgrade (`ctx.ws` present, yielding connection `conn`), constructs a fresh
`Client`, binds the upgraded connection to it and joins it to the session,
then logs; when no upgrade is available sets status 400 and returns. -/
def sessionRouteHandler (get : String → Option Session) (sessionId : String)
    (ws : Option Conn) : List HandlerStep :=
  match get sessionId with
  | none => [.status 404]
  | some _ =>
    match ws with
    | some conn =>
        let client := Client.new.bind conn
        [.clientBind conn, .sessionJoin client, .logInfo]
    | none => [.status 400]

/-- The handler of `router.all("/session/:sessionId/:clientId")`: looks the
session up through `get`; on absent sets status 404; otherwise, on an
upgrade yielding connection `conn`, calls
`session.reconnect(clientId, conn)`; when reconnect signals an error the
log line is not reached and the error propagates out of the handler
uncaught (second component); when no upgrade is available sets status 400.
-/
def clientRouteHandler (get : String → Option Session) (sessionId : String)
    (clientId : String) (ws : Option Conn) :
    List HandlerStep × Option RelayError :=
  match get sessionId with
  | none => ([.status 404], none)
  | some s =>
    match ws with
    | some conn =>
        match (s.reconnect clientId conn).2 with
        | none => ([.sessionReconnect clientId conn, .logInfo], none)
        | some e => ([.sessionReconnect clientId conn], some e)
    | none => ([.status 400], none)

/-- The response assembled by the `POST /session` handler: the arguments
passed to `SessionManager.new`, the Content-Type header, and the JSON
response body. -/
structure PostSessionResult where
  newCall : SessionOptions × Nat
  contentType : String
  bodySessionId : String
  deriving DecidableEq, Repr

/-- The handler of `router.post("/session")`: takes the body already
parsed into `SessionOptions` by the `jsonBody` middleware, calls
`SessionManager.new(options, ctx.options.sessionLifetime)` (abstracted as
the `mgrNew` entry point), sets Content-Type to application/json and
responds with `{ sessionId: session.id }`. -/
def postSessionHandler (mgrNew : SessionOptions → Nat → Session)
    (options : SessionOptions) (sessionLifetime : Nat) : PostSessionResult :=
  let session := mgrNew options sessionLifetime
  { newCall := (options, sessionLifetime)
    contentType := "application/json"
    bodySessionId := session.id }

/-! ## Helper lemmas -/

/-- Looking a key up in an association list none of whose keys equal it
yields none. -/
theorem lookup_eq_none_of_not_mem_keys {β : Type} (l : List (String × β))
    (k : String) (h : k ∉ l.map Prod.fst) : l.lookup k = none := by
  induction l with
  | nil => rfl
  | cons p t ih =>
      obtain ⟨pk, pv⟩ := p
      have hk : k ≠ pk := by
        intro e
        exact h (by simp [e])
      have hb : (k == pk) = false := beq_false_of_ne hk
      simp only [List.lookup, hb]
      exact ih (fun hm => h (by simp [hm]))

/-- Every element of a list of naturals is bounded by its `foldr max 0`. -/
theorem le_foldr_max (l : List Nat) {x : Nat} (hx : x ∈ l) :
    x ≤ l.foldr max 0 := by
  induction l with
  | nil => cases hx
  | cons a t ih =>
      rcases List.mem_cons.mp hx with rfl | hm
      · exact le_max_left _ _
      · exact le_trans (ih hm) (le_max_right _ _)

/-- The length of the generated fresh client identity. -/
theorem freshClientId_length (members : List (String × Client)) :
    (freshClientId members).length =
      (members.map (fun p => p.1.length)).foldr max 0 + 1 := by
  have h : ∀ l : List Char, (String.mk l).length = l.length := fun l => rfl
  unfold freshClientId
  rw [h, List.length_replicate]

/-- The generated fresh client identity differs from every key of the
member mapping. -/
theorem freshClientId_not_mem (members : List (String × Client)) :
    freshClientId members ∉ members.map Prod.fst := by
  intro hmem
  have h1 : (freshClientId members).length ∈ members.map (fun p => p.1.length) := by
    obtain ⟨p, hp, he⟩ := List.mem_map.mp hmem
    exact List.mem_map.mpr ⟨p, hp, by rw [he]⟩
  have h2 := le_foldr_max _ h1
  rw [freshClientId_length] at h2
  omega

/-- `join` appends the issued identity to the identity list. -/
theorem clientIds_join (s : Session) (c : Client) :
    (s.join c).1.clientIds = s.clientIds ++ [freshClientId s.members] := by
  show (s.members ++
      [(freshClientId s.members, { c with id := freshClientId s.members })]).map
      Prod.fst = _
  rw [List.map_append]
  rfl

/-- `reconnect` leaves the identity list unchanged. -/
theorem clientIds_reconnect (s : Session) (clientId : String) (conn : Conn) :
    (s.reconnect clientId conn).1.clientIds = s.clientIds := by
  unfold Session.reconnect
  cases h : s.members.lookup clientId with
  | none => rfl
  | some c =>
      simp only [Session.clientIds, List.map_map]
      apply List.map_congr_left
      intro p _
      by_cases hp : p.1 = clientId <;> simp [hp]

/-- One membership operation preserves distinctness of the identity
list. -/
theorem clientIds_nodup_applyOp (s : Session) (op : SessionOp)
    (h : s.clientIds.Nodup) : (s.applyOp op).clientIds.Nodup := by
  cases op with
  | join c =>
      rw [Session.applyOp, clientIds_join]
      refine List.Nodup.append h (List.nodup_singleton _) ?_
      intro a ha hb
      rw [List.mem_singleton.mp hb] at ha
      exact freshClientId_not_mem s.members ha
  | reconnect clientId conn =>
      rw [Session.applyOp, clientIds_reconnect]
      exact h

/-- A membership operation preserves a Session's creation time and
configured lifetime. -/
theorem applyOp_preserves_ttl (s : Session) (op : SessionOp) :
    (s.applyOp op).createdAt = s.createdAt ∧
    (s.applyOp op).lifetime = s.lifetime := by
  cases op with
  | join c => simp [Session.applyOp, Session.join]
  | reconnect clientId conn =>
      unfold Session.applyOp Session.reconnect
      cases h : s.members.lookup clientId <;> simp [h]

/-- The per-entry update of `SessionManager.applyOp`, with the key pulled
out of the conditional. -/
theorem managerApplyOp_entry (o : ManagerOp) (p : String × Session) :
    (if p.1 = o.sessionId then (p.1, p.2.applyOp o.op) else p) =
      (p.1, if p.1 = o.sessionId then p.2.applyOp o.op else p.2) := by
  by_cases h : p.1 = o.sessionId <;> simp [h]

theorem lookup_managerApplyOp (m : Registry) (o : ManagerOp) (sid : String) :
    (SessionManager.applyOp m o).lookup sid =
      (m.lookup sid).map
        (fun s => if sid = o.sessionId then s.applyOp o.op else s) := by
  induction m with
  | nil => rfl
  | cons p t ih =>
      obtain ⟨pk, ps⟩ := p
      simp only [SessionManager.applyOp] at ih ⊢
      rw [List.map_cons, managerApplyOp_entry]
      by_cases hs : sid = pk
      · subst hs
        simp [List.lookup]
      · have hb : (sid == pk) = false := beq_false_of_ne hs
        simp [List.lookup, hb, ih]

/-- The identities issued by a run of joins extend the identity list. -/
theorem issueAll_clientIds (cs : List Client) : ∀ s : Session,
    (s.issueAll cs).1.clientIds = s.clientIds ++ (s.issueAll cs).2 := by
  induction cs with
  | nil => intro s; simp [Session.issueAll]
  | cons c cs ih =>
      intro s
      simp only [Session.issueAll]
      rw [ih, clientIds_join]
      simp [Session.join, List.append_assoc]

/-- A run of joins preserves distinctness of the identity list. -/
theorem issueAll_nodup (cs : List Client) : ∀ s : Session, s.clientIds.Nodup →
    (s.issueAll cs).1.clientIds.Nodup := by
  induction cs with
  | nil => intro s h; exact h
  | cons c cs ih =>
      intro s h
      simp only [Session.issueAll]
      exact ih _ (clientIds_nodup_applyOp s (.join c) h)

/-- Once every successful lookup of `sid` yields an expired session,
membership operations keep it that way. -/
theorem lookup_applyOps_expired (ops : List ManagerOp) :
    ∀ (m : Registry) (sid : String) (now : Nat),
    (∀ s, m.lookup sid = some s → s.createdAt + s.lifetime ≤ now) →
    ∀ s, (SessionManager.applyOps m ops).lookup sid = some s →
      s.createdAt + s.lifetime ≤ now := by
  induction ops with
  | nil => intro m sid now h; exact h
  | cons o t ih =>
      intro m sid now h
      apply ih
      intro s hs
      rw [lookup_managerApplyOp] at hs
      cases hm : m.lookup sid with
      | none => rw [hm] at hs; cases hs
      | some s0 =>
          rw [hm] at hs
          simp only [Option.map_some', Option.some.injEq] at hs
          have h0 := h s0 hm
          by_cases hc : sid = o.sessionId
          · rw [if_pos hc] at hs
            obtain ⟨h1, h2⟩ := applyOp_preserves_ttl s0 o.op
            rw [← hs, h1, h2]
            exact h0
          · rw [if_neg hc] at hs
            rw [← hs]
            exact h0

/-- `get` is none whenever every successful lookup finds an expired
session. -/
theorem get_eq_none_of_expired (m : Registry) (now : Nat) (sid : String)
    (h : ∀ s, m.lookup sid = some s → s.createdAt + s.lifetime ≤ now) :
    SessionManager.get m now sid = none := by
  unfold SessionManager.get
  cases hm : m.lookup sid with
  | none => rfl
  | some s =>
      show (if s.createdAt + s.lifetime ≤ now then (none : Option Session)
        else some s) = none
      rw [if_pos (h s hm)]

/-! ## The claims -/

/-- C1: for every POST /session request whose body the middleware has
parsed into SessionOptions, the handler calls SessionManager.new with
those options and the configured session lifetime, and the response body
is a JSON object whose sessionId equals the identity of the session that
SessionManager.new returned. -/
theorem postSession_spec (mgrNew : SessionOptions → Nat → Session)
    (options : SessionOptions) (sessionLifetime : Nat) :
    (postSessionHandler mgrNew options sessionLifetime).newCall =
      (options, sessionLifetime) ∧
    (postSessionHandler mgrNew options sessionLifetime).bodySessionId =
      (mgrNew options sessionLifetime).id :=
  ⟨rfl, rfl⟩

/-- C2: for every request to /session/{sessionId} or
/session/{sessionId}/{clientId} whose sessionId the manager resolves to
absent, the handler sets status 404 and neither Session.join nor
Session.reconnect is invoked. -/
theorem controller_absent_session_404 (get : String → Option Session)
    (sessionId clientId : String) (ws : Option Conn)
    (h : get sessionId = none) :
    sessionRouteHandler get sessionId ws = [.status 404] ∧
    clientRouteHandler get sessionId clientId ws = ([.status 404], none) ∧
    (∀ st ∈ sessionRouteHandler get sessionId ws,
      (∀ c, st ≠ .sessionJoin c) ∧ ∀ cid conn, st ≠ .sessionReconnect cid conn) ∧
    (∀ st ∈ (clientRouteHandler get sessionId clientId ws).1,
      (∀ c, st ≠ .sessionJoin c) ∧ ∀ cid conn, st ≠ .sessionReconnect cid conn) := by
  refine ⟨?_, ?_, ?_, ?_⟩ <;> simp [sessionRouteHandler, clientRouteHandler, h]

/-- C2 witness. -/
theorem controller_absent_session_404_witness :
    ((fun _ : String => (none : Option Session)) "sid" = none) ∧
    sessionRouteHandler (fun _ => none) "sid" none = [.status 404] :=
  ⟨rfl, (controller_absent_session_404 (fun _ => none) "sid" "cid" none rfl).1⟩

/-- C3: for every non-upgrade request (no WebSocket available) to either
path whose sessionId resolves to an existing session, the handler sets
status 400 and neither Session.join nor Session.reconnect is invoked. -/
theorem controller_no_upgrade_400 (get : String → Option Session)
    (sessionId clientId : String) (s : Session)
    (h : get sessionId = some s) :
    sessionRouteHandler get sessionId none = [.status 400] ∧
    clientRouteHandler get sessionId clientId none = ([.status 400], none) ∧
    (∀ st ∈ sessionRouteHandler get sessionId none,
      (∀ c, st ≠ .sessionJoin c) ∧ ∀ cid conn, st ≠ .sessionReconnect cid conn) ∧
    (∀ st ∈ (clientRouteHandler get sessionId clientId none).1,
      (∀ c, st ≠ .sessionJoin c) ∧ ∀ cid conn, st ≠ .sessionReconnect cid conn) := by
  refine ⟨?_, ?_, ?_, ?_⟩ <;> simp [sessionRouteHandler, clientRouteHandler, h]

/-- C3 witness. -/
theorem controller_no_upgrade_400_witness :
    ((fun _ : String => some (Session.fresh "sid" 0 60 ⟨"o"⟩)) "sid" =
      some (Session.fresh "sid" 0 60 ⟨"o"⟩)) ∧
    clientRouteHandler (fun _ => some (Session.fresh "sid" 0 60 ⟨"o"⟩))
      "sid" "cid" none = ([.status 400], none) :=
  ⟨rfl,
    (controller_no_upgrade_400 (fun _ => some (Session.fresh "sid" 0 60 ⟨"o"⟩))
      "sid" "cid" (Session.fresh "sid" 0 60 ⟨"o"⟩) rfl).2.1⟩

/-- C4: for every upgrade request to /session/{sessionId} whose sessionId
resolves to an existing session, the handler constructs a fresh Client,
binds the upgraded connection to it via Client.bind, and then calls
Session.join with that client: the bind step precedes the join step, and
the joined client wraps the new connection. -/
theorem controller_join_bind_order (get : String → Option Session)
    (sessionId : String) (s : Session) (conn : Conn)
    (h : get sessionId = some s) :
    sessionRouteHandler get sessionId (some conn) =
      [.clientBind conn, .sessionJoin (Client.new.bind conn), .logInfo] ∧
    (Client.new.bind conn).conn = some conn := by
  constructor
  · simp [sessionRouteHandler, h]
  · rfl

/-- C4 witness. -/
theorem controller_join_bind_order_witness :
    ((fun _ : String => some (Session.fresh "s1" 0 60 ⟨"o"⟩)) "s1" =
      some (Session.fresh "s1" 0 60 ⟨"o"⟩)) ∧
    sessionRouteHandler (fun _ => some (Session.fresh "s1" 0 60 ⟨"o"⟩))
      "s1" (some 3) =
      [.clientBind 3, .sessionJoin (Client.new.bind 3), .logInfo] :=
  ⟨rfl,
    (controller_join_bind_order (fun _ => some (Session.fresh "s1" 0 60 ⟨"o"⟩))
      "s1" (Session.fresh "s1" 0 60 ⟨"o"⟩) 3 rfl).1⟩

/-- C5: for every upgrade request to /session/{sessionId}/{clientId} whose
sessionId resolves to an existing session, the handler calls
Session.reconnect with the clientId path parameter and the upgraded
connection; when reconnect signals NotFound the handler does not report
success (no success log) and the NotFound propagates out of the handler
uncaught, surfacing as a client-visible failure. -/
theorem controller_reconnect_call_propagates (get : String → Option Session)
    (sessionId clientId : String) (s : Session) (conn : Conn)
    (h : get sessionId = some s) :
    (clientRouteHandler get sessionId clientId (some conn)).1.head? =
      some (.sessionReconnect clientId conn) ∧
    ((s.reconnect clientId conn).2 = some .notFound →
      clientRouteHandler get sessionId clientId (some conn) =
        ([.sessionReconnect clientId conn], some .notFound) ∧
      .logInfo ∉ (clientRouteHandler get sessionId clientId (some conn)).1) := by
  cases he : (s.reconnect clientId conn).2 with
  | none =>
      constructor
      · simp [clientRouteHandler, h, he]
      · intro hx
        exact Option.noConfusion hx
  | some e =>
      cases e
      constructor
      · simp [clientRouteHandler, h, he]
      · intro _
        constructor
        · simp [clientRouteHandler, h, he]
        · simp [clientRouteHandler, h, he]

/-- C5 witness. -/
theorem controller_reconnect_call_propagates_witness :
    ((fun _ : String => some (Session.fresh "s2" 0 60 ⟨"o"⟩)) "s2" =
      some (Session.fresh "s2" 0 60 ⟨"o"⟩)) ∧
    ((Session.fresh "s2" 0 60 ⟨"o"⟩).reconnect "cid" 4).2 = some .notFound ∧
    clientRouteHandler (fun _ => some (Session.fresh "s2" 0 60 ⟨"o"⟩))
      "s2" "cid" (some 4) = ([.sessionReconnect "cid" 4], some .notFound) :=
  ⟨rfl, rfl,
    ((controller_reconnect_call_propagates
      (fun _ => some (Session.fresh "s2" 0 60 ⟨"o"⟩)) "s2" "cid"
      (Session.fresh "s2" 0 60 ⟨"o"⟩) 4 rfl).2 rfl).1⟩

/-- C6: reconnect with a client identity the Session never issued fails
with NotFound, leaves the member mapping unchanged, and never binds the
supplied connection to any Client. -/
theorem reconnect_unknown_notFound (s : Session) (clientId : String)
    (conn : Conn) (h : clientId ∉ s.clientIds)
    (hc : ∀ p ∈ s.members, p.2.conn ≠ some conn) :
    s.reconnect clientId conn = (s, some .notFound) ∧
    (s.reconnect clientId conn).1.members = s.members ∧
    ∀ p ∈ (s.reconnect clientId conn).1.members, p.2.conn ≠ some conn := by
  have hl : s.members.lookup clientId = none :=
    lookup_eq_none_of_not_mem_keys s.members clientId h
  have he : s.reconnect clientId conn = (s, some .notFound) := by
    unfold Session.reconnect
    rw [hl]
  refine ⟨he, by rw [he], ?_⟩
  rw [he]
  exact hc

/-- C6 witness. -/
theorem reconnect_unknown_notFound_witness :
    ("unknown-id" ∉ (Session.fresh "s3" 0 60 ⟨"o"⟩).clientIds) ∧
    (∀ p ∈ (Session.fresh "s3" 0 60 ⟨"o"⟩).members, p.2.conn ≠ some 9) ∧
    (Session.fresh "s3" 0 60 ⟨"o"⟩).reconnect "unknown-id" 9 =
      (Session.fresh "s3" 0 60 ⟨"o"⟩, some .notFound) := by
  have h1 : "unknown-id" ∉ (Session.fresh "s3" 0 60 ⟨"o"⟩).clientIds := by
    simp [Session.fresh, Session.clientIds]
  have h2 : ∀ p ∈ (Session.fresh "s3" 0 60 ⟨"o"⟩).members,
      p.2.conn ≠ some 9 := by
    simp [Session.fresh]
  exact ⟨h1, h2, (reconnect_unknown_notFound _ "unknown-id" 9 h1 h2).1⟩

/-- C7: every sequence of join calls on a fresh Session issues pairwise
distinct client identities, and after any sequence of membership
operations (joins and reconnects) the Session's client-identity list has
no duplicates. -/
theorem session_client_ids_distinct (sid : String) (t L : Nat)
    (o : SessionOptions) (cs : List Client) (ops : List SessionOp) :
    ((Session.fresh sid t L o).issueAll cs).2.Nodup ∧
    ((Session.fresh sid t L o).applyOps ops).clientIds.Nodup := by
  have hfresh : (Session.fresh sid t L o).clientIds.Nodup := List.nodup_nil
  constructor
  · have h1 := issueAll_nodup cs (Session.fresh sid t L o) hfresh
    rw [issueAll_clientIds] at h1
    simpa using h1
  · have h2 : ∀ s : Session, s.clientIds.Nodup →
        (s.applyOps ops).clientIds.Nodup := by
      induction ops with
      | nil => intro s h; exact h
      | cons op t ih =>
          intro s h
          show ((op :: t).foldl Session.applyOp s).clientIds.Nodup
          rw [List.foldl_cons]
          exact ih _ (clientIds_nodup_applyOp s op h)
    exact h2 _ hfresh

/-- C8: a Session created through SessionManager.new with lifetime L is
unreachable via SessionManager.get at any time at or after L has elapsed
since its creation, whatever membership activity (joins, reconnects) has
happened in between. -/
theorem session_unreachable_after_ttl (m : Registry) (o : SessionOptions)
    (L t : Nat) (ops : List ManagerOp) (now : Nat) (hnow : t + L ≤ now) :
    SessionManager.get
      (SessionManager.applyOps (SessionManager.new m o L t).1 ops) now
      (SessionManager.new m o L t).2.id = none := by
  apply get_eq_none_of_expired
  apply lookup_applyOps_expired
  intro s hs
  have hb : (freshSessionId m == freshSessionId m) = true := beq_self_eq_true _
  simp only [SessionManager.new, Session.fresh, List.lookup, hb] at hs
  cases hs
  exact hnow

/-- C8 witness: a session created at time 0 with lifetime 5, joined once,
is unreachable at time 5. -/
theorem session_unreachable_after_ttl_witness :
    (0 + 5 ≤ 5) ∧
    SessionManager.get
      (SessionManager.applyOps (SessionManager.new [] ⟨"o"⟩ 5 0).1
        [⟨(SessionManager.new [] ⟨"o"⟩ 5 0).2.id, .join Client.new⟩]) 5
      (SessionManager.new [] ⟨"o"⟩ 5 0).2.id = none :=
  ⟨by decide,
    session_unreachable_after_ttl [] ⟨"o"⟩ 5 0
      [⟨(SessionManager.new [] ⟨"o"⟩ 5 0).2.id, .join Client.new⟩] 5 (by decide)⟩

/-- C9: ApiBuilder.body throws APIError with code ClientErrorCode.Error
(-1) for GET, HEAD, CONNECT, DELETE and OPTIONS (producing no builder, so
the builder is unchanged), and for POST, PUT and PATCH returns without
throwing a new builder carrying the declared body schema. -/
theorem apiBuilder_body_method_check (b : ApiBuilder)
    (data : SimpleParamsDeclare) :
    ((b.method = .GET ∨ b.method = .HEAD ∨ b.method = .CONNECT ∨
        b.method = .DELETE ∨ b.method = .OPTIONS) →
      b.body data =
        .error ⟨ClientErrorCode.Error.toInt, "HTTP Method should not have body."⟩ ∧
      ClientErrorCode.Error.toInt = -1) ∧
    ((b.method = .POST ∨ b.method = .PUT ∨ b.method = .PATCH) →
      b.body data = .ok { b with dataInfo := some (simpleParam data) }) := by
  constructor
  · intro h
    refine ⟨?_, rfl⟩
    rcases h with h | h | h | h | h <;> simp [ApiBuilder.body, h]
  · intro h
    rcases h with h | h | h <;> simp [ApiBuilder.body, h]

/-- C9 witness. -/
theorem apiBuilder_body_method_check_witness :
    ((HTTPMethod.GET = .GET ∨ HTTPMethod.GET = .HEAD ∨
        HTTPMethod.GET = .CONNECT ∨ HTTPMethod.GET = .DELETE ∨
        HTTPMethod.GET = .OPTIONS) ∧
      (ApiBuilder.mk .GET "u" [] [] none none).body [] =
        .error ⟨ClientErrorCode.Error.toInt, "HTTP Method should not have body."⟩) ∧
    ((HTTPMethod.POST = .POST ∨ HTTPMethod.POST = .PUT ∨
        HTTPMethod.POST = .PATCH) ∧
      (ApiBuilder.mk .POST "u" [] [] none none).body [] =
        .ok (ApiBuilder.mk .POST "u" [] [] (some (simpleParam [])) none)) :=
  ⟨⟨Or.inl rfl,
      ((apiBuilder_body_method_check (ApiBuilder.mk .GET "u" [] [] none none)
        []).1 (Or.inl rfl)).1⟩,
    ⟨Or.inl rfl,
      (apiBuilder_body_method_check (ApiBuilder.mk .POST "u" [] [] none none)
        []).2 (Or.inl rfl)⟩⟩

/-- C10: validateNonEmpty throws APIError(InvalidParameter) exactly when
the input consists entirely of JavaScript whitespace (the empty string
included), and on every other input returns the input string unchanged. -/
theorem validateNonEmpty_iff_blank (key text : String) :
    (validateNonEmpty key text =
        .error ⟨ClientErrorCode.InvalidParameter.toInt,
          key ++ " cannot be empty"⟩
      ↔ ∀ c ∈ text.toList, isJsWhitespace c = true) ∧
    ((¬ ∀ c ∈ text.toList, isJsWhitespace c = true) →
      validateNonEmpty key text = .ok text) := by
  by_cases h : regexBlankTest text = true
  · have hall : ∀ c ∈ text.toList, isJsWhitespace c = true := by
      intro c hc
      exact List.all_eq_true.mp h c hc
    have herr : validateNonEmpty key text =
        .error ⟨ClientErrorCode.InvalidParameter.toInt,
          key ++ " cannot be empty"⟩ := by
      unfold validateNonEmpty
      rw [if_pos h]
    exact ⟨⟨fun _ => hall, fun _ => herr⟩, fun hc => absurd hall hc⟩
  · have hno : ¬ ∀ c ∈ text.toList, isJsWhitespace c = true := by
      intro hx
      exact h (List.all_eq_true.mpr hx)
    have hok : validateNonEmpty key text = .ok text := by
      unfold validateNonEmpty
      rw [if_neg h]
    refine ⟨⟨fun he => ?_, fun hx => absurd hx hno⟩, fun _ => hok⟩
    rw [hok] at he
    exact Except.noConfusion he

/-- C10 witness: a blank input is rejected with InvalidParameter and a
non-blank input is returned unchanged. -/
theorem validateNonEmpty_iff_blank_witness :
    (∀ c ∈ " ".toList, isJsWhitespace c = true) ∧
    validateNonEmpty "k" " " =
      .error ⟨ClientErrorCode.InvalidParameter.toInt, "k cannot be empty"⟩ ∧
    (¬ ∀ c ∈ "a".toList, isJsWhitespace c = true) ∧
    validateNonEmpty "k" "a" = .ok "a" := by
  refine ⟨by decide, ?_, by decide, ?_⟩
  · exact (validateNonEmpty_iff_blank "k" " ").1.mpr (by decide)
  · exact (validateNonEmpty_iff_blank "k" "a").2 (by decide)
